import Mathlib

/-!
Shallow embedding of `src/toy_rsa/src/main.rs` (the toy RSA engine) and
verification of the specification claims about it.

Machine integers are modelled as `Nat` (u64) and `Int` (i64); wherever the
Rust source performs a checked (saturating) operation the embedding clamps
explicitly, and wherever the source performs a raw, unchecked operation the
embedding wraps two's-complement style, which is the wasm (release-mode)
semantics of the compiled module.  Loops and non-structural recursions are
embedded with an explicit fuel argument that provably dominates the number of
iterations the source loop can take, so every definition is executable and
kernel-reducible.
-/

namespace ToyRsa

/-- Number of values of a u64, i.e. 2^64. -/
def u64Size : Nat := 18446744073709551616

/-- Largest u64 value, 2^64 - 1, the saturation point of the unsigned ops. -/
def u64Max : Nat := 18446744073709551615

/-- Smallest i64 value, -2^63. -/
def i64Min : Int := -9223372036854775808

/-- Largest i64 value, 2^63 - 1. -/
def i64Max : Int := 9223372036854775807

/-- Two's-complement wrap of an unbounded integer into the i64 range; this is
what a raw (unchecked) i64 arithmetic instruction computes in wasm. -/
def wrapI64 (x : Int) : Int :=
  (x + 9223372036854775808) % 18446744073709551616 - 9223372036854775808

/-- Wrap of an unbounded natural into the u64 range (raw u64 arithmetic). -/
def wrapU64 (x : Nat) : Nat := x % u64Size

/-- The Rust cast of a u64 value to i64 (two's-complement reinterpretation). -/
def toI64 (a : Nat) : Int := wrapI64 (a : Int)

/-- The Rust cast of an i64 value to u64 (two's-complement reinterpretation). -/
def toU64 (x : Int) : Nat := (x % (18446744073709551616 : Int)).toNat

/-- Source line 4: checked u64 addition, saturating to u64::MAX on overflow. -/
def safe_add_u64 (a b : Nat) : Nat := if a + b ≤ u64Max then a + b else u64Max

/-- Source line 8: checked u64 subtraction, 0 on underflow.  On `Nat` this is
exactly truncated subtraction. -/
def safe_sub_u64 (a b : Nat) : Nat := a - b

/-- Source line 12: checked u64 multiplication, saturating to u64::MAX. -/
def safe_mul_u64 (a b : Nat) : Nat := if a * b ≤ u64Max then a * b else u64Max

/-- Source line 16: division returning 0 when the divisor is 0. -/
def safe_div_u64 (a b : Nat) : Nat := if b = 0 then 0 else a / b

/-- Source line 25: checked i64 addition; any overflow yields i64::MAX. -/
def safe_add_i64 (a b : Int) : Int :=
  if i64Min ≤ a + b ∧ a + b ≤ i64Max then a + b else i64Max

/-- Source line 29: checked i64 subtraction; any overflow yields i64::MIN. -/
def safe_sub_i64 (a b : Int) : Int :=
  if i64Min ≤ a - b ∧ a - b ≤ i64Max then a - b else i64Min

/-- Source line 33: checked i64 multiplication; any overflow yields i64::MAX. -/
def safe_mul_i64 (a b : Int) : Int :=
  if i64Min ≤ a * b ∧ a * b ≤ i64Max then a * b else i64Max

/-- Source line 37: i64 division returning 0 when the divisor is 0, and raw
truncated division otherwise.  (The single overflowing input pair
(i64::MIN, -1) traps in the source; it is modelled by its mathematical value
here and no claim below touches it.) -/
def safe_div_i64 (a b : Int) : Int := if b = 0 then 0 else Int.tdiv a b

/-- Trial-division loop of `is_prime_like` (source lines 53-59), with fuel.
`i*i` and `(candidate/i)*i` are the source's raw u64 multiplications, hence
wrapped.  Fuel `n` dominates the iteration count, since the loop exits as soon
as `i` exceeds the square root of `n`. -/
def trialAux (n : Nat) : Nat → Nat → Bool
  | 0, _ => true
  | fuel + 1, i =>
    if wrapU64 (i * i) ≤ n then
      if wrapU64 (safe_div_u64 n i * i) = n then false
      else trialAux n fuel (i + 1)
    else true

/-- Source line 48: primality screen by trial division. -/
def is_prime_like (candidate : Nat) : Bool :=
  if candidate < 2 then false else trialAux candidate candidate 2

/-- Euclid loop of `gcd_u64` (source lines 64-71), with fuel; fuel `b+1`
dominates the iteration count because the second argument strictly
decreases. -/
def gcdAux : Nat → Nat → Nat → Nat
  | 0, a, _ => a
  | fuel + 1, a, b => if b = 0 then a else gcdAux fuel b (a % b)

/-- Source line 64: gcd by Euclid's algorithm. -/
def gcd_u64 (a b : Nat) : Nat := gcdAux (b + 1) a b

/-- Square-and-multiply loop of `mod_exp` (source lines 83-91), with fuel;
fuel `e` dominates the iteration count (one iteration per bit of `e`). -/
def modExpAux (modulus : Nat) : Nat → Nat → Nat → Nat → Nat
  | 0, _, result, _ => result
  | fuel + 1, e, result, current =>
    if e = 0 then result
    else
      modExpAux modulus fuel (e / 2)
        (if e % 2 = 1 then safe_mul_u64 result current % modulus else result)
        (safe_mul_u64 current current % modulus)

/-- Source line 75: modular exponentiation, returning 0 when the modulus
is 0. -/
def mod_exp (base exp modulus : Nat) : Nat :=
  if modulus = 0 then 0 else modExpAux modulus exp exp 1 (base % modulus)

/-- Source line 97: the standard toy RSA encryption path. -/
def toy_rsa_encrypt (p q e message : Nat) : Nat :=
  if ¬ is_prime_like p ∨ ¬ is_prime_like q then 0
  else
    let n := safe_mul_u64 p q
    let phi := safe_mul_u64 (safe_sub_u64 p 1) (safe_sub_u64 q 1)
    if gcd_u64 e phi ≠ 1 then 0
    else mod_exp message e n

/-- Source line 120 (`partial_fallback` in the source): bounded retry that
halves both candidates and decrements the attempt counter; structural
recursion on the counter. -/
def fallback_encrypt : Nat → Nat → Nat → Nat → Nat → Nat
  | _, _, _, _, 0 => 0
  | p, q, e, message, attempts + 1 =>
    let p_half := safe_div_u64 p 2
    let q_half := safe_div_u64 q 2
    let encrypted_half := toy_rsa_encrypt p_half q_half e message
    if encrypted_half ≠ 0 then encrypted_half
    else fallback_encrypt p_half q_half e message attempts

/-- Recursion of `extended_gcd` (source lines 193-201), with fuel; fuel
`natAbs b + 1` dominates the recursion depth because the absolute value of
the second argument strictly decreases.  The two operations written without
a safe wrapper in the source (the multiplication by `x1` and the final
subtraction) wrap. -/
def egcdAux : Nat → Int → Int → Int × Int
  | 0, a, _ => (a, 1)
  | fuel + 1, a, b =>
    if b = 0 then (a, 1)
    else
      let gx := egcdAux fuel b (Int.tmod a b)
      let x := wrapI64 (safe_sub_i64 0 (safe_div_i64 a b) * gx.2)
      (gx.1, wrapI64 (gx.2 - x))

/-- Source line 193: extended Euclid returning the gcd and one coefficient. -/
def extended_gcd (a b : Int) : Int × Int := egcdAux (b.natAbs + 1) a b

/-- Source line 173: modular inverse via `extended_gcd`, 0 as the "no
inverse" sentinel. -/
def mod_inverse (a m : Nat) : Nat :=
  if m = 0 then 0
  else
    let gx := extended_gcd (toI64 a) (toI64 m)
    if gx.1 ≠ 1 then 0
    else
      let inv := Int.tmod gx.2 (toI64 m)
      if inv < 0 then toU64 (safe_add_i64 inv (toI64 m)) else toU64 inv

/-- Source line 145: CRT-based encryption path. -/
def toy_rsa_encrypt_crt (p q e message : Nat) : Nat :=
  if ¬ is_prime_like p ∨ ¬ is_prime_like q then 0
  else
    let n := safe_mul_u64 p q
    let p_enc := mod_exp message e p
    let q_enc := mod_exp message e q
    let q_inv_mod_p := mod_inverse q p
    let p_inv_mod_q := mod_inverse p q
    if q_inv_mod_p = 0 ∨ p_inv_mod_q = 0 then 0
    else
      let term1 := safe_mul_u64 q q_inv_mod_p % n
      let part1 := safe_mul_u64 term1 p_enc % n
      let term2 := safe_mul_u64 p p_inv_mod_q % n
      let part2 := safe_mul_u64 term2 q_enc % n
      safe_add_u64 part1 part2 % n

/-- Source line 204: XOR-fold of a list of results. -/
def combine_results (results : List Nat) : Nat :=
  results.foldl (fun out r => out ^^^ r) 0

/-- Source line 213: the top-level entry point. -/
def main (p_candidate q_candidate e message use_crt : Nat) : Nat :=
  let encrypted := toy_rsa_encrypt p_candidate q_candidate e message
  if encrypted = 0 then
    let fallback_encrypted := fallback_encrypt p_candidate q_candidate e message 3
    if fallback_encrypted = 0 then 0 else fallback_encrypted
  else
    let crt_encrypted :=
      if use_crt = 1 then toy_rsa_encrypt_crt p_candidate q_candidate e message
      else 0
    combine_results [encrypted, crt_encrypted]

/-- Overflow-checked rerun of the `extended_gcd` recursion: identical to
`egcdAux` except that each of the two raw (unchecked) i64 operations of the
source - the multiplication `(0 - a/b) * x1` on line 199 and the subtraction
`x1 - x` on line 200 - reports `none` when its mathematical value leaves the
i64 range, i.e. when the source operation overflows instead of saturating. -/
def egcdChkAux : Nat → Int → Int → Option (Int × Int)
  | 0, a, _ => some (a, 1)
  | fuel + 1, a, b =>
    if b = 0 then some (a, 1)
    else
      match egcdChkAux fuel b (Int.tmod a b) with
      | none => none
      | some gx =>
        let xraw := safe_sub_i64 0 (safe_div_i64 a b) * gx.2
        if i64Min ≤ xraw ∧ xraw ≤ i64Max then
          let sraw := gx.2 - xraw
          if i64Min ≤ sraw ∧ sraw ≤ i64Max then some (gx.1, sraw) else none
        else none

/-- Overflow-checked `extended_gcd`: `none` exactly when some raw operation
of the source overflows the i64 range. -/
def egcdChk (a b : Int) : Option (Int × Int) := egcdChkAux (b.natAbs + 1) a b

/-- The square-and-multiply loop returns its accumulator when the remaining
exponent is zero, whatever the fuel. -/
theorem modExpAux_zero_exp (m : Nat) : ∀ fuel r c, modExpAux m fuel 0 r c = r := by
  intro fuel r c
  cases fuel <;> simp [modExpAux]

/-- With modulus 1 the square-and-multiply loop ends in an accumulator that
has been reduced modulo 1, hence returns 0, for every positive exponent. -/
theorem modExpAux_mod_one :
    ∀ fuel e r c, 0 < e → e ≤ fuel → modExpAux 1 fuel e r c = 0 := by
  intro fuel
  induction fuel with
  | zero => intro e r c he hle; omega
  | succ fuel ih =>
    intro e r c he hle
    have hne : ¬ e = 0 := by omega
    simp only [modExpAux, if_neg hne]
    by_cases h2 : e / 2 = 0
    · have he1 : e = 1 := by omega
      subst he1
      simp [modExpAux_zero_exp, Nat.mod_one]
    · exact ih (e / 2) _ _ (by omega) (by omega)

/-- For a positive exponent the square-and-multiply loop ends in a reduction
modulo the (positive) modulus, so its result is below the modulus. -/
theorem modExpAux_lt (n : Nat) (hn : 0 < n) :
    ∀ fuel e r c, 0 < e → e ≤ fuel → modExpAux n fuel e r c < n := by
  intro fuel
  induction fuel with
  | zero => intro e r c he hle; omega
  | succ fuel ih =>
    intro e r c he hle
    have hne : ¬ e = 0 := by omega
    simp only [modExpAux, if_neg hne]
    by_cases h2 : e / 2 = 0
    · have he1 : e = 1 := by omega
      subst he1
      simpa [modExpAux_zero_exp] using Nat.mod_lt (safe_mul_u64 r c) hn
    · exact ih (e / 2) _ _ (by omega) (by omega)

/-- The embedded Euclid loop computes the mathematical gcd (with sufficient
fuel). -/
theorem gcdAux_eq_gcd : ∀ fuel a b, b < fuel → gcdAux fuel a b = Nat.gcd b a := by
  intro fuel
  induction fuel with
  | zero => intro a b h; omega
  | succ fuel ih =>
    intro a b h
    by_cases hb : b = 0
    · subst hb; simp [gcdAux]
    · have hlt : a % b < b := Nat.mod_lt a (Nat.pos_of_ne_zero hb)
      simp only [gcdAux, if_neg hb]
      rw [ih b (a % b) (by omega)]
      exact (Nat.gcd_rec b a).symm

/-- The source gcd agrees with the mathematical gcd. -/
theorem gcd_u64_eq_gcd (a b : Nat) : gcd_u64 a b = Nat.gcd a b := by
  rw [gcd_u64, gcdAux_eq_gcd (b + 1) a b (by omega), Nat.gcd_comm]

/-- Characterisation of the trial-division loop: for candidates within the
claimed test range (so that no u64 wrap can occur before the loop exits) it
returns true exactly when no integer at or above the current index divides
the candidate within the square-root bound. -/
theorem trialAux_true_iff (n : Nat) (hn : n ≤ 10000) :
    ∀ fuel i, 2 ≤ i → i ≤ 102 → n + 1 ≤ fuel + i →
      (trialAux n fuel i = true ↔ ∀ j, i ≤ j → j * j ≤ n → ¬ j ∣ n) := by
  intro fuel
  induction fuel with
  | zero =>
    intro i h2 h102 hinv
    simp only [trialAux]
    constructor
    · intro _ j hij hjj
      exfalso
      have hj : j ≤ j * j := Nat.le_mul_of_pos_left j (by omega)
      omega
    · intro _; trivial
  | succ fuel ih =>
    intro i h2 h102 hinv
    have hii_lt : i * i < u64Size := by
      have : i * i ≤ 102 * 102 := Nat.mul_le_mul h102 h102
      simp only [u64Size]; omega
    have hwrap : wrapU64 (i * i) = i * i := Nat.mod_eq_of_lt hii_lt
    simp only [trialAux, hwrap]
    by_cases hguard : i * i ≤ n
    · rw [if_pos hguard]
      have hi100 : i ≤ 100 := by
        by_contra hcon
        push_neg at hcon
        have : 101 * 101 ≤ i * i := Nat.mul_le_mul (by omega) (by omega)
        omega
      have hine : ¬ i = 0 := by omega
      have hdivval : safe_div_u64 n i = n / i := by simp [safe_div_u64, hine]
      have hdm_le : n / i * i ≤ n := Nat.div_mul_le_self n i
      have hdm_wrap : wrapU64 (n / i * i) = n / i * i :=
        Nat.mod_eq_of_lt (by simp only [u64Size]; omega)
      rw [hdivval, hdm_wrap]
      by_cases hdvd : i ∣ n
      · rw [if_pos (Nat.div_mul_cancel hdvd)]
        simp only [Bool.false_eq_true, false_iff]
        intro hall
        exact hall i (le_refl i) hguard hdvd
      · have hne : ¬ (n / i * i = n) := by
          intro heq
          exact hdvd ⟨n / i, by rw [Nat.mul_comm]; exact heq.symm⟩
        rw [if_neg hne, ih (i + 1) (by omega) (by omega) (by omega)]
        constructor
        · intro hforall j hij hjj
          rcases Nat.eq_or_lt_of_le hij with heq | hlt
          · subst heq; exact hdvd
          · exact hforall j (by omega) hjj
        · intro hforall j hij hjj
          exact hforall j (by omega) hjj
    · rw [if_neg hguard]
      constructor
      · intro _ j hij hjj
        exfalso
        have : i * i ≤ j * j := Nat.mul_le_mul hij hij
        omega
      · intro _; trivial

/-- Within the claimed test range the primality screen agrees with
mathematical primality. -/
theorem is_prime_like_iff_prime (n : Nat) (hn : n ≤ 10000) :
    is_prime_like n = true ↔ Nat.Prime n := by
  by_cases h2 : n < 2
  · simp only [is_prime_like, if_pos h2]
    constructor
    · intro h; exact Bool.noConfusion h
    · intro hp; exact absurd hp.two_le (by omega)
  · simp only [is_prime_like, if_neg h2]
    rw [trialAux_true_iff n hn n 2 (le_refl 2) (by omega) (by omega),
      Nat.prime_def_le_sqrt]
    constructor
    · intro hall
      exact ⟨by omega, fun m hm hms => hall m hm (Nat.le_sqrt.mp hms)⟩
    · rintro ⟨-, hall⟩ j hj hjj
      exact hall j hj (Nat.le_sqrt.mpr hjj)

/-- Claim C1: the code contradicts the claim.  At a = 2, m = 3 we have
m different from 0 and gcd(2, 3) = 1, so the claim demands
(2 * mod_inverse(2, 3)) mod 3 = 1; but the code returns the sentinel 0 (and
2 * 0 mod 3 = 0), although the true inverse 2 exists. -/
theorem C1_mod_inverse_at_failing_input :
    mod_inverse 2 3 = 0 ∧ Nat.gcd 2 3 = 1 ∧
      (2 * mod_inverse 2 3) % 3 = 0 ∧ (2 * 2) % 3 = 1 := by
  decide

/-- Claim C2: the code contradicts the claim.  extended_gcd(3, 2) returns
the pair (1, 6), yet 3 * 6 + 2 * y is even for every integer y, so it never
equals the returned gcd 1: the returned coefficient is not a Bezout
coefficient. -/
theorem C2_extended_gcd_at_failing_input :
    extended_gcd 3 2 = (1, 6) ∧ ∀ y : Int, (3 * 6 + 2 * y) % 2 = 0 := by
  refine ⟨by decide, fun y => ?_⟩
  omega

/-- Claim C3: the entry point returns the fallback result whenever the
standard encryption returns 0, and otherwise XORs the standard ciphertext
with the CRT ciphertext exactly when the flag equals 1 (XOR with 0, i.e. the
ciphertext unchanged, otherwise). -/
theorem C3_main_contract (p q e m u : Nat) :
    (toy_rsa_encrypt p q e m = 0 → main p q e m u = fallback_encrypt p q e m 3) ∧
    (toy_rsa_encrypt p q e m ≠ 0 → u = 1 →
      main p q e m u = toy_rsa_encrypt p q e m ^^^ toy_rsa_encrypt_crt p q e m) ∧
    (toy_rsa_encrypt p q e m ≠ 0 → u ≠ 1 →
      main p q e m u = toy_rsa_encrypt p q e m) := by
  refine ⟨?_, ?_, ?_⟩
  · intro h0
    simp only [main, if_pos h0]
    by_cases hf : fallback_encrypt p q e m 3 = 0
    · rw [if_pos hf, hf]
    · rw [if_neg hf]
  · intro h0 hu
    simp only [main, if_neg h0, if_pos hu, combine_results, List.foldl]
    rw [Nat.zero_xor]
  · intro h0 hu
    simp only [main, if_neg h0, if_neg hu, combine_results, List.foldl]
    rw [Nat.zero_xor, Nat.xor_zero]

/-- Witness for C3 at concrete inputs covering all three branches. -/
theorem C3_main_contract_witness :
    main 0 0 0 0 0 = fallback_encrypt 0 0 0 0 3 ∧
    main 61 53 17 65 1 =
      toy_rsa_encrypt 61 53 17 65 ^^^ toy_rsa_encrypt_crt 61 53 17 65 ∧
    main 61 53 17 65 0 = toy_rsa_encrypt 61 53 17 65 :=
  ⟨(C3_main_contract 0 0 0 0 0).1 (by decide),
   (C3_main_contract 61 53 17 65 1).2.1 (by decide) (by decide),
   (C3_main_contract 61 53 17 65 0).2.2 (by decide) (by decide)⟩

/-- Claim C4: the standard encryption path returns 0 when a candidate fails
the primality screen or when the exponent is not coprime to the saturating
totient, and otherwise returns mod_exp(message, e, p*q); concrete scenarios
61/53/17/65 (ciphertext 2790) and 4/9 (always 0) included. -/
theorem C4_toy_rsa_encrypt_contract (p q e m : Nat) :
    ((is_prime_like p = false ∨ is_prime_like q = false) →
      toy_rsa_encrypt p q e m = 0) ∧
    (is_prime_like p = true → is_prime_like q = true →
      Nat.gcd e (safe_mul_u64 (safe_sub_u64 p 1) (safe_sub_u64 q 1)) ≠ 1 →
      toy_rsa_encrypt p q e m = 0) ∧
    (is_prime_like p = true → is_prime_like q = true →
      Nat.gcd e (safe_mul_u64 (safe_sub_u64 p 1) (safe_sub_u64 q 1)) = 1 →
      toy_rsa_encrypt p q e m = mod_exp m e (safe_mul_u64 p q)) ∧
    toy_rsa_encrypt 61 53 17 65 = 2790 ∧
    mod_exp 65 17 3233 = 2790 ∧
    toy_rsa_encrypt 4 9 e m = 0 := by
  refine ⟨?_, ?_, ?_, by decide, by decide, ?_⟩
  · intro h
    rcases h with h | h <;> simp [toy_rsa_encrypt, h]
  · intro hp hq hg
    simp only [toy_rsa_encrypt]
    rw [if_neg (by simp [hp, hq]),
      if_pos (by rw [gcd_u64_eq_gcd]; exact hg)]
  · intro hp hq hg
    simp only [toy_rsa_encrypt]
    rw [if_neg (by simp [hp, hq]),
      if_neg (by rw [gcd_u64_eq_gcd]; exact not_not_intro hg)]
  · have h4 : is_prime_like 4 = false := by decide
    simp [toy_rsa_encrypt, h4]

/-- Witness for C4 at concrete inputs covering the three conditional
branches. -/
theorem C4_toy_rsa_encrypt_contract_witness :
    toy_rsa_encrypt 4 9 5 10 = 0 ∧
    toy_rsa_encrypt 61 53 6 65 = 0 ∧
    toy_rsa_encrypt 61 53 17 65 = mod_exp 65 17 (safe_mul_u64 61 53) :=
  ⟨(C4_toy_rsa_encrypt_contract 4 9 5 10).1 (Or.inl (by decide)),
   (C4_toy_rsa_encrypt_contract 61 53 6 65).2.1 (by decide) (by decide) (by decide),
   (C4_toy_rsa_encrypt_contract 61 53 17 65).2.2.1 (by decide) (by decide) (by decide)⟩

/-- Counterexample to claim C5 as stated: it demands mod_exp(b, e, 1) = 0
for all b and e, but at b = 0, e = 0 the code returns 1 (the loop never runs
and the initial accumulator 1 is returned). -/
theorem C5_counterexample : mod_exp 0 0 1 = 1 := by decide

/-- Claim C5 as amended: mod_exp(b, e, 0) = 0 for all b, e; mod_exp(b, 0, n)
is 1 for all b and positive n; and mod_exp(b, e, 1) = 0 for all b and all
positive e. -/
theorem C5_mod_exp_edges (b e n : Nat) :
    mod_exp b e 0 = 0 ∧ (0 < n → mod_exp b 0 n = 1) ∧
      (0 < e → mod_exp b e 1 = 0) := by
  refine ⟨by simp [mod_exp], ?_, ?_⟩
  · intro hn
    simp only [mod_exp, if_neg (by omega : ¬ n = 0)]
    exact modExpAux_zero_exp n 0 1 (b % n)
  · intro he
    simp only [mod_exp, if_neg (by omega : ¬ (1 : Nat) = 0)]
    exact modExpAux_mod_one e e 1 (b % 1) he (le_refl e)

/-- Witness for C5 at concrete inputs. -/
theorem C5_mod_exp_edges_witness : mod_exp 5 0 7 = 1 ∧ mod_exp 5 3 1 = 0 :=
  ⟨(C5_mod_exp_edges 5 0 7).2.1 (by decide),
   (C5_mod_exp_edges 5 3 1).2.2 (by decide)⟩

/-- Claim C6: the CRT path returns 0 when a candidate fails the primality
screen or when either cross-inverse is the sentinel 0, and otherwise
reconstructs the ciphertext from the two partial residues with every
intermediate product reduced modulo the saturating n = p*q. -/
theorem C6_toy_rsa_encrypt_crt_contract (p q e m : Nat) :
    ((is_prime_like p = false ∨ is_prime_like q = false) →
      toy_rsa_encrypt_crt p q e m = 0) ∧
    (is_prime_like p = true → is_prime_like q = true →
      (mod_inverse q p = 0 ∨ mod_inverse p q = 0) →
      toy_rsa_encrypt_crt p q e m = 0) ∧
    (is_prime_like p = true → is_prime_like q = true →
      mod_inverse q p ≠ 0 → mod_inverse p q ≠ 0 →
      toy_rsa_encrypt_crt p q e m =
        safe_add_u64
          (safe_mul_u64 (safe_mul_u64 q (mod_inverse q p) % safe_mul_u64 p q)
            (mod_exp m e p) % safe_mul_u64 p q)
          (safe_mul_u64 (safe_mul_u64 p (mod_inverse p q) % safe_mul_u64 p q)
            (mod_exp m e q) % safe_mul_u64 p q)
          % safe_mul_u64 p q) := by
  refine ⟨?_, ?_, ?_⟩
  · intro h
    rcases h with h | h <;> simp [toy_rsa_encrypt_crt, h]
  · intro hp hq hinv
    simp only [toy_rsa_encrypt_crt]
    rw [if_neg (by simp [hp, hq]), if_pos hinv]
  · intro hp hq h1 h2
    simp only [toy_rsa_encrypt_crt]
    rw [if_neg (by simp [hp, hq]), if_neg (by simp [h1, h2])]

/-- Witness for C6 at concrete inputs covering the three branches.  At
p = 2, q = 3 both candidates pass the screen but mod_inverse(3, 2) = 0, so
the CRT path fails; at p = 5, q = 7 both inverses are nonzero and the
reconstruction formula applies. -/
theorem C6_toy_rsa_encrypt_crt_contract_witness :
    toy_rsa_encrypt_crt 4 7 3 2 = 0 ∧
    toy_rsa_encrypt_crt 2 3 3 2 = 0 ∧
    toy_rsa_encrypt_crt 5 7 3 2 =
      safe_add_u64
        (safe_mul_u64 (safe_mul_u64 7 (mod_inverse 7 5) % safe_mul_u64 5 7)
          (mod_exp 2 3 5) % safe_mul_u64 5 7)
        (safe_mul_u64 (safe_mul_u64 5 (mod_inverse 5 7) % safe_mul_u64 5 7)
          (mod_exp 2 3 7) % safe_mul_u64 5 7)
        % safe_mul_u64 5 7 :=
  ⟨(C6_toy_rsa_encrypt_crt_contract 4 7 3 2).1 (Or.inl (by decide)),
   (C6_toy_rsa_encrypt_crt_contract 2 3 3 2).2.1 (by decide) (by decide)
     (Or.inl (by decide)),
   (C6_toy_rsa_encrypt_crt_contract 5 7 3 2).2.2 (by decide) (by decide)
     (by decide) (by decide)⟩

/-- Counterexample to claim C7 as stated: not every arithmetic operation in
the core saturates or is zero-guarded.  Running extended_gcd on the inputs
(i64::MAX, 3) makes the raw multiplication on source line 199 overflow the
i64 range (its mathematical value is -(i64::MAX / 3) * 4, far below
i64::MIN), so the overflow-checked rerun reports none: that operation
neither saturates nor is guarded, it wraps (traps in a checked build). -/
theorem C7_counterexample : egcdChk 9223372036854775807 3 = none := by decide

/-- Claim C7 as amended: the saturation/zero-guard policy holds at the level
of the safe wrapper operations, which always clamp into the representable
range and return 0 on division by zero; it does not extend to the raw
multiply and subtract inside extended_gcd (nor to the raw loop-bound
multiply of is_prime_like), which can overflow, as the counterexample
records. -/
theorem C7_safe_ops_clamp (x y : Nat) (a b : Int) :
    (safe_add_u64 x y ≤ u64Max ∧ safe_mul_u64 x y ≤ u64Max ∧
      (x ≤ u64Max → safe_sub_u64 x y ≤ u64Max ∧ safe_div_u64 x y ≤ u64Max)) ∧
    safe_div_u64 x 0 = 0 ∧
    ((i64Min ≤ safe_add_i64 a b ∧ safe_add_i64 a b ≤ i64Max) ∧
      (i64Min ≤ safe_sub_i64 a b ∧ safe_sub_i64 a b ≤ i64Max) ∧
      (i64Min ≤ safe_mul_i64 a b ∧ safe_mul_i64 a b ≤ i64Max)) ∧
    safe_div_i64 a 0 = 0 := by
  refine ⟨⟨?_, ?_, ?_⟩, by simp [safe_div_u64], ⟨?_, ?_, ?_⟩, by simp [safe_div_i64]⟩
  · unfold safe_add_u64; split <;> omega
  · unfold safe_mul_u64; split <;> omega
  · intro hx
    constructor
    · unfold safe_sub_u64; omega
    · unfold safe_div_u64; split
      · omega
      · exact le_trans (Nat.div_le_self x y) hx
  · unfold safe_add_i64; split
    · next h => exact h
    · exact ⟨by decide, le_refl _⟩
  · unfold safe_sub_i64; split
    · next h => exact h
    · exact ⟨le_refl _, by decide⟩
  · unfold safe_mul_i64; split
    · next h => exact h
    · exact ⟨by decide, le_refl _⟩

/-- Witness for C7 (amended) at concrete inputs. -/
theorem C7_safe_ops_clamp_witness :
    safe_sub_u64 5 9 ≤ u64Max ∧ safe_div_u64 5 9 ≤ u64Max :=
  (C7_safe_ops_clamp 5 9 0 0).1.2.2 (by decide)

/-- Claim C8: the fallback controller returns 0 immediately when the attempt
budget is 0, and each recursive step runs on the halved candidates with a
strictly smaller budget, so the recursion depth is bounded by the initial
budget (the equations below are the structural recursion on the counter). -/
theorem C8_fallback_terminates (p q e m a : Nat) :
    fallback_encrypt p q e m 0 = 0 ∧
    fallback_encrypt p q e m (a + 1) =
      (if toy_rsa_encrypt (p / 2) (q / 2) e m ≠ 0 then
        toy_rsa_encrypt (p / 2) (q / 2) e m
      else fallback_encrypt (p / 2) (q / 2) e m a) := by
  constructor
  · rfl
  · have hdiv : ∀ x : Nat, safe_div_u64 x 2 = x / 2 := fun x => by
      simp [safe_div_u64]
    simp only [fallback_encrypt, hdiv]

/-- Claim C9: the primality screen rejects every input below 2, and on the
whole range up to 10000 it agrees with mathematical primality (the reference
test). -/
theorem C9_is_prime_like_agrees (n : Nat) :
    (n < 2 → is_prime_like n = false) ∧
    (n ≤ 10000 → (is_prime_like n = true ↔ Nat.Prime n)) := by
  constructor
  · intro h; simp [is_prime_like, h]
  · intro h; exact is_prime_like_iff_prime n h

/-- Witness for C9 at concrete inputs 1 and 9973. -/
theorem C9_is_prime_like_agrees_witness :
    is_prime_like 1 = false ∧ Nat.Prime 9973 :=
  ⟨(C9_is_prime_like_agrees 1).1 (by decide),
   ((C9_is_prime_like_agrees 9973).2 (by decide)).mp (by decide)⟩

/-- Claim C10: for positive exponent and positive modulus the result of
mod_exp is fully reduced, i.e. strictly below the modulus. -/
theorem C10_mod_exp_reduced (base e n : Nat) (he : 0 < e) (hn : 0 < n) :
    mod_exp base e n < n := by
  simp only [mod_exp, if_neg (by omega : ¬ n = 0)]
  exact modExpAux_lt n hn e e 1 (base % n) he (le_refl e)

/-- Witness for C10 at concrete inputs. -/
theorem C10_mod_exp_reduced_witness : mod_exp 65 17 3233 < 3233 :=
  C10_mod_exp_reduced 65 17 3233 (by decide) (by decide)

end ToyRsa
